import Mathlib

/-!
Verification of the `token-bucket-redis` repository.

The core of the repository is the Redis-side Lua function `use_token_bucket`
(`lua/lib.lua`): given a bucket key and the arguments
`(token_capacity, token_cost, token_refill_rate_in_tokens_per_minute,
now_in_milliseconds)`, it atomically loads the stored bucket hash (fields
`tokens` and `last_refilled_at_in_milliseconds`, synthesizing a full bucket
when the key is absent), refills it lazily according to the elapsed time,
decides admission, persists the updated hash with `HSET`, and sets an
expiration with `EXPIRE` equal to the (ceiling of the) number of seconds
until the bucket would be completely refilled.

Numbers are modelled as rationals (Lua numbers are IEEE doubles; all the
properties below are about the ideal real-valued arithmetic the code
implements). Timestamps are rationals as well, since they flow through the
same Lua arithmetic.

The thin TypeScript facade (`src/bucket.ts`, `src/client.ts`) is embedded
below as well: `createBucket`, `safeConsume`, `consume`, and the
`TokenBucketError` it raises on denial.
-/

namespace TokenBucketRedis

/-- The bucket hash stored in Redis under the bucket key: fields `tokens`
and `last_refilled_at_in_milliseconds` (`lua/lib.lua`). -/
structure BucketState where
  tokens : ℚ
  last_refilled_at_in_milliseconds : ℚ
deriving DecidableEq

/-- The local `token_refill_rate_in_tokens_per_millisecond` of
`use_token_bucket`: `token_refill_rate_in_tokens_per_minute / (60 * 1000)`. -/
def token_refill_rate_per_millisecond
    (token_refill_rate_in_tokens_per_minute : ℚ) : ℚ :=
  token_refill_rate_in_tokens_per_minute / (60 * 1000)

/-- The `bucket` local of `use_token_bucket`: the stored hash when the key
exists, otherwise the synthesized record
`{tokens = token_capacity, last_refilled_at_in_milliseconds = now}`. -/
def effective_bucket (stored : Option BucketState)
    (token_capacity now_in_milliseconds : ℚ) : BucketState :=
  stored.getD ⟨token_capacity, now_in_milliseconds⟩

/-- The `tokens_after_refill` local of `use_token_bucket`:
`math.min(current_tokens + rate_per_ms * elapsed_ms, token_capacity)`. -/
def tokens_after_refill (stored : Option BucketState)
    (token_capacity token_refill_rate_in_tokens_per_minute
      now_in_milliseconds : ℚ) : ℚ :=
  min
    ((effective_bucket stored token_capacity now_in_milliseconds).tokens
      + token_refill_rate_per_millisecond token_refill_rate_in_tokens_per_minute
        * (now_in_milliseconds
            - (effective_bucket stored token_capacity
                now_in_milliseconds).last_refilled_at_in_milliseconds))
    token_capacity

/-- Everything observable about one invocation of `use_token_bucket`:
the returned pair `{outcome, tokens}` (`{"SUCCESS"|"FAIL", updated_tokens}`),
the hash written by `HSET` (`updated_bucket`), the argument passed to
`EXPIRE` (`ttl_seconds`), and the record left in Redis after
`HSET` + `EXPIRE` (`stored_after`; `EXPIRE` with a non-positive number of
seconds deletes the key). -/
structure UseResult where
  outcome : String
  tokens : ℚ
  updated_bucket : BucketState
  ttl_seconds : ℤ
  stored_after : Option BucketState
deriving DecidableEq

/-- Shallow embedding of the Lua function `use_token_bucket`
(`lua/lib.lua`), as a pure transition on the optional stored record.
Arguments follow the Lua `args` order: capacity, cost, refill rate
(tokens per minute), now (milliseconds). -/
def use_token_bucket (stored : Option BucketState)
    (token_capacity token_cost token_refill_rate_in_tokens_per_minute
      now_in_milliseconds : ℚ) : UseResult :=
  let taf := tokens_after_refill stored token_capacity
    token_refill_rate_in_tokens_per_minute now_in_milliseconds
  let updated_tokens := if token_cost ≤ taf then taf - token_cost else taf
  let updated_bucket : BucketState := ⟨updated_tokens, now_in_milliseconds⟩
  let ttl : ℤ :=
    ⌈(token_capacity - updated_tokens)
        / token_refill_rate_per_millisecond
            token_refill_rate_in_tokens_per_minute
        / 1000⌉
  { outcome := if token_cost ≤ taf then "SUCCESS" else "FAIL"
    tokens := updated_tokens
    updated_bucket := updated_bucket
    ttl_seconds := ttl
    stored_after := if ttl ≤ 0 then none else some updated_bucket }

/-- Projection equation: the returned outcome tag. -/
lemma outcome_eq (stored : Option BucketState) (cap cost rate now : ℚ) :
    (use_token_bucket stored cap cost rate now).outcome
      = if cost ≤ tokens_after_refill stored cap rate now then "SUCCESS"
        else "FAIL" := rfl

/-- Projection equation: the returned (and persisted) token count. -/
lemma tokens_eq (stored : Option BucketState) (cap cost rate now : ℚ) :
    (use_token_bucket stored cap cost rate now).tokens
      = if cost ≤ tokens_after_refill stored cap rate now then
          tokens_after_refill stored cap rate now - cost
        else tokens_after_refill stored cap rate now := rfl

/-- Projection equation: the hash written by `HSET`. -/
lemma updated_bucket_eq (stored : Option BucketState) (cap cost rate now : ℚ) :
    (use_token_bucket stored cap cost rate now).updated_bucket
      = ⟨(use_token_bucket stored cap cost rate now).tokens, now⟩ := rfl

/-- Projection equation: the number of seconds passed to `EXPIRE`. -/
lemma ttl_eq (stored : Option BucketState) (cap cost rate now : ℚ) :
    (use_token_bucket stored cap cost rate now).ttl_seconds
      = ⌈(cap - (use_token_bucket stored cap cost rate now).tokens)
           / token_refill_rate_per_millisecond rate / 1000⌉ := rfl

/-- Projection equation: the record left in Redis after `HSET` + `EXPIRE`. -/
lemma stored_after_eq (stored : Option BucketState) (cap cost rate now : ℚ) :
    (use_token_bucket stored cap cost rate now).stored_after
      = if (use_token_bucket stored cap cost rate now).ttl_seconds ≤ 0 then none
        else some (use_token_bucket stored cap cost rate now).updated_bucket :=
  rfl

/-- Refill never exceeds the capacity. -/
lemma tokens_after_refill_le_cap (stored : Option BucketState)
    (cap rate now : ℚ) : tokens_after_refill stored cap rate now ≤ cap :=
  min_le_right _ _

/-- On an absent record the synthesized bucket refills to exactly the
capacity (elapsed time is zero). -/
lemma tokens_after_refill_none (cap rate now : ℚ) :
    tokens_after_refill none cap rate now = cap := by
  simp [tokens_after_refill, effective_bucket]

/-- Unfolding of the refill on a present record. -/
lemma tokens_after_refill_some (b : BucketState) (cap rate now : ℚ) :
    tokens_after_refill (some b) cap rate now
      = min (b.tokens
          + token_refill_rate_per_millisecond rate
            * (now - b.last_refilled_at_in_milliseconds)) cap := rfl

/-- The returned token count never exceeds `tokens_after_refill` when the
cost is non-negative. -/
lemma tokens_le_tokens_after_refill (stored : Option BucketState)
    (cap cost rate now : ℚ) (hcost : 0 ≤ cost) :
    (use_token_bucket stored cap cost rate now).tokens
      ≤ tokens_after_refill stored cap rate now := by
  rw [tokens_eq]
  split_ifs with h
  · linarith
  · exact le_refl _

/-- Written from the spec's wording of step 3 of the contract, for the
refinement claim C1: `tokens_after_refill = min(capacity, tokens +
(refill_rate / 60000) * (now - last_refilled_at))`, over the stored state
or the synthesized state `(capacity, now)` when the record is absent. -/
def spec_tokens_after_refill (stored : Option BucketState)
    (capacity refill_rate now : ℚ) : ℚ :=
  min capacity
    ((effective_bucket stored capacity now).tokens
      + refill_rate / 60000
        * (now - (effective_bucket stored capacity
            now).last_refilled_at_in_milliseconds))

/-- The code's refill expression coincides with the spec's. -/
lemma tokens_after_refill_eq_spec (stored : Option BucketState)
    (capacity refill_rate now : ℚ) :
    tokens_after_refill stored capacity refill_rate now
      = spec_tokens_after_refill stored capacity refill_rate now := by
  rw [tokens_after_refill, spec_tokens_after_refill, min_comm]
  norm_num [token_refill_rate_per_millisecond]

/-- C1: one invocation of the atomic transition procedure, on the stored
state or the synthesized state `(capacity, now)` when the record is absent,
computes `tokens_after_refill = min(capacity, tokens + (refill_rate/60000) *
(now - last_refilled_at))`; the request is admitted iff
`cost ≤ tokens_after_refill`; the resulting token count is
`tokens_after_refill - cost` when admitted and `tokens_after_refill` when
denied; and a cost exactly equal to `tokens_after_refill` is admitted and
leaves exactly zero tokens. -/
theorem use_token_bucket_refill_admission_update (stored : Option BucketState)
    (capacity cost refill_rate now : ℚ) :
    ((use_token_bucket stored capacity cost refill_rate now).outcome
        = "SUCCESS"
      ↔ cost ≤ spec_tokens_after_refill stored capacity refill_rate now)
    ∧ (use_token_bucket stored capacity cost refill_rate now).tokens
        = (if cost ≤ spec_tokens_after_refill stored capacity refill_rate now
           then spec_tokens_after_refill stored capacity refill_rate now - cost
           else spec_tokens_after_refill stored capacity refill_rate now)
    ∧ (use_token_bucket stored capacity
          (spec_tokens_after_refill stored capacity refill_rate now)
          refill_rate now).outcome = "SUCCESS"
    ∧ (use_token_bucket stored capacity
          (spec_tokens_after_refill stored capacity refill_rate now)
          refill_rate now).tokens = 0 := by
  rw [outcome_eq, tokens_eq, outcome_eq, tokens_eq,
    tokens_after_refill_eq_spec]
  refine ⟨?_, rfl, ?_, ?_⟩
  · split_ifs with h
    · simp [h]
    · simp [h]
  · rw [if_pos (le_refl _)]
  · rw [if_pos (le_refl _), sub_self]

/-- C6: on an absent record, a cost strictly greater than the capacity is
denied, the returned token count is the capacity, and — because the `EXPIRE`
argument is `⌈0⌉ = 0`, which deletes the key — no record persists after the
call. -/
theorem use_token_bucket_absent_overdraw (capacity cost rate now : ℚ)
    (h : capacity < cost) :
    (use_token_bucket none capacity cost rate now).outcome = "FAIL"
    ∧ (use_token_bucket none capacity cost rate now).tokens = capacity
    ∧ (use_token_bucket none capacity cost rate now).stored_after = none := by
  have hn : ¬ cost ≤ tokens_after_refill none capacity rate now := by
    rw [tokens_after_refill_none]; exact not_le.mpr h
  have htok : (use_token_bucket none capacity cost rate now).tokens
      = capacity := by
    rw [tokens_eq, if_neg hn, tokens_after_refill_none]
  refine ⟨?_, htok, ?_⟩
  · rw [outcome_eq, if_neg hn]
  · rw [stored_after_eq, if_pos ?_]
    rw [ttl_eq, htok, sub_self, zero_div, zero_div, Int.ceil_zero]

/-- Witness for C6 at the spec's concrete scenario: capacity 200, refill
rate 100 per minute, fresh bucket, consume 201. -/
theorem use_token_bucket_absent_overdraw_witness :
    (200:ℚ) < 201
    ∧ (use_token_bucket none 200 201 100 0).outcome = "FAIL"
    ∧ (use_token_bucket none 200 201 100 0).tokens = 200
    ∧ (use_token_bucket none 200 201 100 0).stored_after = none := by
  refine ⟨by norm_num, ?_⟩
  have h := use_token_bucket_absent_overdraw 200 201 100 0 (by norm_num)
  exact ⟨h.1, h.2.1, h.2.2⟩

/-- Unfolding of the refill on a present record given by its fields. -/
lemma tokens_after_refill_mk (tok last cap rate now : ℚ) :
    tokens_after_refill (some ⟨tok, last⟩) cap rate now
      = min (tok + token_refill_rate_per_millisecond rate * (now - last))
          cap := rfl

/-- The per-millisecond rate is non-negative when the per-minute rate is. -/
lemma rate_per_millisecond_nonneg (rate : ℚ) (hrate : 0 ≤ rate) :
    0 ≤ token_refill_rate_per_millisecond rate :=
  div_nonneg hrate (by norm_num)

/-- A denied call has `cost` above the refilled count. -/
lemma not_le_of_outcome_fail (stored : Option BucketState)
    (cap cost rate now : ℚ)
    (hden : (use_token_bucket stored cap cost rate now).outcome = "FAIL") :
    ¬ cost ≤ tokens_after_refill stored cap rate now := by
  intro hc
  rw [outcome_eq, if_pos hc] at hden
  exact absurd hden (by simp)

/-- C3: a denied invocation persists exactly the refilled token count with
`last_refilled_at = now` (the cost is not subtracted), and — provided the
stored record satisfies the state invariant and the caller clock did not go
backwards — the stored token count is never decreased by a denied request. -/
theorem use_token_bucket_denial_preserves_refill (stored : Option BucketState)
    (cap cost rate now : ℚ) (hrate : 0 ≤ rate)
    (hden : (use_token_bucket stored cap cost rate now).outcome = "FAIL")
    (hinv : ∀ b, stored = some b →
      b.tokens ≤ cap ∧ b.last_refilled_at_in_milliseconds ≤ now) :
    (use_token_bucket stored cap cost rate now).updated_bucket
        = ⟨tokens_after_refill stored cap rate now, now⟩
    ∧ ∀ b, stored = some b →
        b.tokens
          ≤ (use_token_bucket stored cap cost rate now).updated_bucket.tokens := by
  have hn := not_le_of_outcome_fail stored cap cost rate now hden
  have htok : (use_token_bucket stored cap cost rate now).tokens
      = tokens_after_refill stored cap rate now := by
    rw [tokens_eq, if_neg hn]
  constructor
  · rw [updated_bucket_eq, htok]
  · intro b hb
    rw [updated_bucket_eq]
    show b.tokens ≤ (use_token_bucket stored cap cost rate now).tokens
    rw [htok, hb, tokens_after_refill_some]
    refine le_min ?_ (hinv b hb).1
    have := mul_nonneg (rate_per_millisecond_nonneg rate hrate)
      (sub_nonneg.mpr (hinv b hb).2)
    linarith

/-- Witness for C3 at the spec's concrete scenario: stored `tokens = 100`
half a minute ago, capacity 200, rate 100 per minute, consume 160 (denied;
the refilled count 150 is persisted with the fresh timestamp). -/
theorem use_token_bucket_denial_preserves_refill_witness :
    (use_token_bucket (some ⟨100, 0⟩) 200 160 100 30000).updated_bucket
        = ⟨tokens_after_refill (some ⟨100, 0⟩) 200 100 30000, 30000⟩
    ∧ (100:ℚ)
        ≤ (use_token_bucket
            (some ⟨100, 0⟩) 200 160 100 30000).updated_bucket.tokens := by
  have h := use_token_bucket_denial_preserves_refill (some ⟨100, 0⟩)
    200 160 100 30000 (by norm_num)
    (by norm_num [outcome_eq, tokens_after_refill_mk,
      token_refill_rate_per_millisecond])
    (by intro b hb; injection hb with h; subst h
        exact ⟨by norm_num, by norm_num⟩)
  exact ⟨h.1, h.2 ⟨100, 0⟩ rfl⟩

/-- C7: monotonic refill. A transition at time `t1` followed by a zero-cost
(observing) transition at time `t2 ≥ t1`, with no intervening consumption,
reports at `t2` at least the token count reported at `t1` — whether or not
the record expired in between. -/
theorem use_token_bucket_monotonic_refill (stored : Option BucketState)
    (cap cost1 rate t1 t2 : ℚ)
    (hrate : 0 ≤ rate) (ht : t1 ≤ t2) (hcost : 0 ≤ cost1) :
    (use_token_bucket stored cap cost1 rate t1).tokens
      ≤ (use_token_bucket
          (use_token_bucket stored cap cost1 rate t1).stored_after
          cap 0 rate t2).tokens := by
  have hu_le_cap : (use_token_bucket stored cap cost1 rate t1).tokens ≤ cap :=
    le_trans (tokens_le_tokens_after_refill _ _ _ _ _ hcost)
      (tokens_after_refill_le_cap _ _ _ _)
  have hle : (use_token_bucket stored cap cost1 rate t1).tokens
      ≤ min ((use_token_bucket stored cap cost1 rate t1).tokens
          + token_refill_rate_per_millisecond rate * (t2 - t1)) cap := by
    refine le_min ?_ hu_le_cap
    have := mul_nonneg (rate_per_millisecond_nonneg rate hrate)
      (sub_nonneg.mpr ht)
    linarith
  rw [stored_after_eq]
  split_ifs with httl
  · rw [tokens_eq none cap 0 rate t2, tokens_after_refill_none]
    split_ifs with h0
    · linarith
    · exact hu_le_cap
  · rw [updated_bucket_eq stored cap cost1 rate t1,
      tokens_eq (some ⟨(use_token_bucket stored cap cost1 rate t1).tokens, t1⟩)
        cap 0 rate t2,
      tokens_after_refill_mk]
    split_ifs with h0
    · rw [sub_zero]
      exact hle
    · exact hle

/-- Witness for C7: consume 10 from a fresh bucket of capacity 200 at time
0, then observe with a zero-cost call at time 30000. -/
theorem use_token_bucket_monotonic_refill_witness :
    (use_token_bucket none 200 10 100 0).tokens
      ≤ (use_token_bucket (use_token_bucket none 200 10 100 0).stored_after
          200 0 100 30000).tokens :=
  use_token_bucket_monotonic_refill none 200 10 100 0 30000
    (by norm_num) (by norm_num) (by norm_num)

/-- With a zero cost the returned count is exactly the refilled count. -/
lemma tokens_eq_taf_of_zero_cost (stored : Option BucketState)
    (cap rate now : ℚ) :
    (use_token_bucket stored cap 0 rate now).tokens
      = tokens_after_refill stored cap rate now := by
  rw [tokens_eq]
  split_ifs with h
  · rw [sub_zero]
  · rfl

/-- Arithmetic core of the TTL bound: waiting at least
`⌈x / rpm / 1000⌉ * 1000` milliseconds refills at least `x` tokens. -/
lemma ceil_ttl_covers (x rpm e : ℚ) (hrpm : 0 < rpm)
    (he : ((⌈x / rpm / 1000⌉ : ℤ) : ℚ) * 1000 ≤ e) : x ≤ rpm * e := by
  have h1 : x / rpm / 1000 ≤ ((⌈x / rpm / 1000⌉ : ℤ) : ℚ) := Int.le_ceil _
  rw [div_le_iff₀ (show (0:ℚ) < 1000 by norm_num)] at h1
  have h3 : x / rpm ≤ e := le_trans h1 he
  rw [div_le_iff₀ hrpm] at h3
  rw [mul_comm]
  exact h3

/-- C5: the `EXPIRE` argument is
`⌈((capacity - new_tokens) / (refill_rate / 60000)) / 1000⌉` seconds, and
once that many seconds have elapsed (converted to milliseconds) with no
further access, a zero-cost peek returns exactly the capacity — whether the
record expired (was deleted by Redis) or is still present. -/
theorem use_token_bucket_ttl_refills_to_full (stored : Option BucketState)
    (cap cost rate now : ℚ) (hrate : 0 < rate) :
    (use_token_bucket stored cap cost rate now).ttl_seconds
        = ⌈(cap - (use_token_bucket stored cap cost rate now).tokens)
            / (rate / 60000) / 1000⌉
    ∧ ∀ t : ℚ,
        now + ((use_token_bucket stored cap cost rate now).ttl_seconds : ℚ)
            * 1000 ≤ t →
        (use_token_bucket
          (use_token_bucket stored cap cost rate now).stored_after
          cap 0 rate t).tokens = cap := by
  have hrpm : 0 < token_refill_rate_per_millisecond rate :=
    div_pos hrate (by norm_num)
  constructor
  · rw [ttl_eq]
    norm_num [token_refill_rate_per_millisecond]
  · intro t ht
    rw [ttl_eq] at ht
    rw [stored_after_eq]
    split_ifs with httl
    · rw [tokens_eq_taf_of_zero_cost, tokens_after_refill_none]
    · rw [updated_bucket_eq stored cap cost rate now,
        tokens_eq_taf_of_zero_cost, tokens_after_refill_mk]
      have key : cap - (use_token_bucket stored cap cost rate now).tokens
          ≤ token_refill_rate_per_millisecond rate * (t - now) :=
        ceil_ttl_covers _ _ _ hrpm (by linarith)
      exact min_eq_right (by linarith)

/-- Witness for C5: fresh bucket of capacity 200, rate 100 per minute,
consume 10 at time 0; the TTL is 6 seconds and a peek at time 6000
milliseconds reports a full bucket. -/
theorem use_token_bucket_ttl_refills_to_full_witness :
    (0:ℚ) < 100
    ∧ (use_token_bucket none 200 10 100 0).ttl_seconds
        = ⌈((200:ℚ) - (use_token_bucket none 200 10 100 0).tokens)
            / (100 / 60000) / 1000⌉
    ∧ (use_token_bucket (use_token_bucket none 200 10 100 0).stored_after
        200 0 100 6000).tokens = 200 := by
  have h := use_token_bucket_ttl_refills_to_full none 200 10 100 0
    (by norm_num)
  refine ⟨by norm_num, h.1, h.2 6000 ?_⟩
  norm_num [use_token_bucket, tokens_after_refill, effective_bucket,
    token_refill_rate_per_millisecond]

/-- Two invocations differing only in a stored state that refills to the
same count behave identically. -/
lemma use_token_bucket_eq_of_taf_eq (s1 s2 : Option BucketState)
    (cap cost rate now : ℚ)
    (h : tokens_after_refill s1 cap rate now
      = tokens_after_refill s2 cap rate now) :
    use_token_bucket s1 cap cost rate now
      = use_token_bucket s2 cap cost rate now := by
  simp only [use_token_bucket, h]

/-- C10: a zero-cost transition at a fixed time `now` is idempotent on the
whole observable outcome: repeating it (on the record it left behind, be it
present or expired) returns the same result, writes the same hash, computes
the same TTL, and leaves the same record. -/
theorem use_token_bucket_zero_cost_idempotent (stored : Option BucketState)
    (cap rate now : ℚ) (hrate : 0 < rate) :
    use_token_bucket (use_token_bucket stored cap 0 rate now).stored_after
        cap 0 rate now
      = use_token_bucket stored cap 0 rate now := by
  have hrpm : 0 < token_refill_rate_per_millisecond rate :=
    div_pos hrate (by norm_num)
  have hucap := tokens_after_refill_le_cap stored cap rate now
  have htok := tokens_eq_taf_of_zero_cost stored cap rate now
  rw [stored_after_eq]
  split_ifs with httl
  · rw [ttl_eq] at httl
    have hceil : (cap - (use_token_bucket stored cap 0 rate now).tokens)
        / token_refill_rate_per_millisecond rate / 1000 ≤ 0 := by
      exact_mod_cast Int.ceil_le.mp httl
    rw [htok] at hceil
    have hcap_le : cap ≤ tokens_after_refill stored cap rate now := by
      by_contra hlt
      push_neg at hlt
      have h0 : (0:ℚ) < cap - tokens_after_refill stored cap rate now := by
        linarith
      have : (0:ℚ) < (cap - tokens_after_refill stored cap rate now)
          / token_refill_rate_per_millisecond rate / 1000 :=
        div_pos (div_pos h0 hrpm) (by norm_num)
      linarith
    apply use_token_bucket_eq_of_taf_eq
    rw [tokens_after_refill_none]
    exact le_antisymm hcap_le hucap
  · apply use_token_bucket_eq_of_taf_eq
    rw [updated_bucket_eq stored cap 0 rate now, htok,
      tokens_after_refill_mk]
    simp only [sub_self, mul_zero, add_zero]
    exact min_eq_left hucap

/-- Witness for C10: stored `tokens = 100` at time 0, capacity 200, rate
100 per minute, two zero-cost calls at time 30000. -/
theorem use_token_bucket_zero_cost_idempotent_witness :
    use_token_bucket
        (use_token_bucket (some ⟨100, 0⟩) 200 0 100 30000).stored_after
        200 0 100 30000
      = use_token_bucket (some ⟨100, 0⟩) 200 0 100 30000 :=
  use_token_bucket_zero_cost_idempotent (some ⟨100, 0⟩) 200 100 30000
    (by norm_num)

/-- One access to a bucket key, as issued by a caller: the requested cost
and the caller-supplied timestamp (the third and fourth Lua arguments; the
capacity and rate are fixed per bucket configuration). -/
structure Access where
  cost : ℚ
  now : ℚ
deriving DecidableEq

/-- Running a sequence of accesses against one bucket key, threading the
Redis record (`stored_after`) through successive `use_token_bucket` calls. -/
def runFrom (cap rate : ℚ) (st : Option BucketState)
    (accesses : List Access) : Option BucketState :=
  accesses.foldl
    (fun s a => (use_token_bucket s cap a.cost rate a.now).stored_after) st

/-- Equation lemma for the empty access sequence. -/
lemma runFrom_nil (cap rate : ℚ) (st : Option BucketState) :
    runFrom cap rate st [] = st := rfl

/-- Equation lemma peeling one access off the sequence. -/
lemma runFrom_cons (cap rate : ℚ) (st : Option BucketState) (a : Access)
    (l : List Access) :
    runFrom cap rate st (a :: l)
      = runFrom cap rate
          ((use_token_bucket st cap a.cost rate a.now).stored_after) l := rfl

/-- The refilled count is non-negative when the stored record satisfies the
invariant and the clock did not go backwards. -/
lemma tokens_after_refill_nonneg (stored : Option BucketState)
    (cap rate now : ℚ) (hcap : 0 ≤ cap) (hrate : 0 ≤ rate)
    (hinv : ∀ b, stored = some b →
      0 ≤ b.tokens ∧ b.last_refilled_at_in_milliseconds ≤ now) :
    0 ≤ tokens_after_refill stored cap rate now := by
  cases stored with
  | none => rw [tokens_after_refill_none]; exact hcap
  | some b =>
    rw [tokens_after_refill_some]
    refine le_min ?_ hcap
    have h1 := (hinv b rfl).1
    have h2 := mul_nonneg (rate_per_millisecond_nonneg rate hrate)
      (sub_nonneg.mpr (hinv b rfl).2)
    linarith

/-- One transition keeps the returned (and written) token count inside
`[0, capacity]`. -/
lemma use_token_bucket_tokens_bounds (stored : Option BucketState)
    (cap cost rate now : ℚ) (hcap : 0 ≤ cap) (hcost : 0 ≤ cost)
    (hrate : 0 ≤ rate)
    (hinv : ∀ b, stored = some b →
      0 ≤ b.tokens ∧ b.tokens ≤ cap
        ∧ b.last_refilled_at_in_milliseconds ≤ now) :
    0 ≤ (use_token_bucket stored cap cost rate now).tokens
    ∧ (use_token_bucket stored cap cost rate now).tokens ≤ cap := by
  have h0 : 0 ≤ tokens_after_refill stored cap rate now :=
    tokens_after_refill_nonneg stored cap rate now hcap hrate
      (fun b hb => ⟨(hinv b hb).1, (hinv b hb).2.2⟩)
  have hle := tokens_after_refill_le_cap stored cap rate now
  rw [tokens_eq]
  split_ifs with h
  · constructor <;> linarith
  · exact ⟨h0, hle⟩

/-- If a record survives a transition, it is the written hash: token count
inside `[0, capacity]` and `last_refilled_at` equal to the caller's `now`. -/
lemma stored_after_invariant (stored : Option BucketState)
    (cap cost rate now : ℚ) (hcap : 0 ≤ cap) (hcost : 0 ≤ cost)
    (hrate : 0 ≤ rate)
    (hinv : ∀ b, stored = some b →
      0 ≤ b.tokens ∧ b.tokens ≤ cap
        ∧ b.last_refilled_at_in_milliseconds ≤ now) :
    ∀ b, (use_token_bucket stored cap cost rate now).stored_after = some b →
      (0 ≤ b.tokens ∧ b.tokens ≤ cap)
        ∧ b.last_refilled_at_in_milliseconds = now := by
  intro b hb
  rw [stored_after_eq] at hb
  by_cases httl : (use_token_bucket stored cap cost rate now).ttl_seconds ≤ 0
  · rw [if_pos httl] at hb
    exact absurd hb (by simp)
  · rw [if_neg httl, updated_bucket_eq, Option.some.injEq] at hb
    subst hb
    exact ⟨use_token_bucket_tokens_bounds stored cap cost rate now
      hcap hcost hrate hinv, rfl⟩

/-- Invariant preservation along any chronologically ordered access
sequence with non-negative costs, from any state satisfying the invariant. -/
lemma runFrom_invariant (cap rate : ℚ) (hcap : 0 ≤ cap) (hrate : 0 ≤ rate) :
    ∀ (accesses : List Access) (st : Option BucketState),
      (∀ a ∈ accesses, 0 ≤ a.cost) →
      List.Chain' (fun x y => x.now ≤ y.now) accesses →
      (∀ b, st = some b → 0 ≤ b.tokens ∧ b.tokens ≤ cap) →
      (∀ b a, st = some b → accesses.head? = some a →
        b.last_refilled_at_in_milliseconds ≤ a.now) →
      ∀ k b, runFrom cap rate st (accesses.take k) = some b →
        0 ≤ b.tokens ∧ b.tokens ≤ cap := by
  intro accesses
  induction accesses with
  | nil =>
    intro st hcost hchain hinv hhead k b hb
    rw [List.take_nil, runFrom_nil] at hb
    exact hinv b hb
  | cons a rest ih =>
    intro st hcost hchain hinv hhead k b hb
    cases k with
    | zero =>
      rw [List.take_zero, runFrom_nil] at hb
      exact hinv b hb
    | succ k =>
      rw [List.take_succ_cons, runFrom_cons] at hb
      have hinv' : ∀ b, st = some b →
          0 ≤ b.tokens ∧ b.tokens ≤ cap
            ∧ b.last_refilled_at_in_milliseconds ≤ a.now := by
        intro b' hb'
        exact ⟨(hinv b' hb').1, (hinv b' hb').2, hhead b' a hb' rfl⟩
      have hstep := stored_after_invariant st cap a.cost rate a.now hcap
        (hcost a (List.mem_cons_self a rest)) hrate hinv'
      refine ih _ (fun a' ha' => hcost a' (List.mem_cons_of_mem a ha'))
        ((List.chain'_cons'.mp hchain).2
          ) (fun b' hb' => (hstep b' hb').1) ?_ k b hb
      intro b' a' hb' ha'
      rw [(hstep b' hb').2]
      exact (List.chain'_cons'.mp hchain).1 a' ha'

/-- C2: starting from the absent record, every record stored after any
prefix of a chronologically ordered sequence of non-negative-cost accesses
has a token count inside `[0, capacity]`. -/
theorem runFrom_tokens_in_range (cap rate : ℚ) (accesses : List Access)
    (hcap : 0 < cap) (hrate : 0 < rate)
    (hcost : ∀ a ∈ accesses, 0 ≤ a.cost)
    (hchron : List.Chain' (fun x y => x.now ≤ y.now) accesses) :
    ∀ k b, runFrom cap rate none (accesses.take k) = some b →
      0 ≤ b.tokens ∧ b.tokens ≤ cap := by
  intro k b hb
  exact runFrom_invariant cap rate (le_of_lt hcap) (le_of_lt hrate) accesses
    none hcost hchron (fun b' hb' => Option.noConfusion hb')
    (fun b' a hb' _ => Option.noConfusion hb') k b hb

/-- Witness for C2: one access (cost 10 at time 0) on a fresh bucket of
capacity 200 and rate 100 per minute stores 190 tokens, inside the range. -/
theorem runFrom_tokens_in_range_witness : (0:ℚ) ≤ 190 ∧ (190:ℚ) ≤ 200 :=
  runFrom_tokens_in_range 200 100 [⟨10, 0⟩] (by norm_num) (by norm_num)
    (by intro a ha
        rw [List.mem_singleton] at ha
        subst ha
        norm_num)
    (by simp)
    1 ⟨190, 0⟩
    (by norm_num [runFrom, use_token_bucket, tokens_after_refill,
      effective_bucket, token_refill_rate_per_millisecond,
      BucketState.mk.injEq])

/-- A bucket handle as returned by `createBucket` (`src/bucket.ts`): only
the caller-supplied configuration and the derived Redis key. Creating it
does not touch Redis. -/
structure Bucket where
  id : String
  capacity : ℚ
  refillRateInTokensPerMinute : ℚ
  key : String
deriving DecidableEq

/-- The reasons carried by `TokenBucketError` (`src/bucket.ts`). -/
inductive TokenBucketErrorReason where
  | NOT_ENOUGH_TOKENS
deriving DecidableEq

/-- The typed failure raised by `consume` (`src/bucket.ts`): the denied
bucket handle, the message, the reason, and the current token count. -/
structure TokenBucketError where
  bucket : Bucket
  message : String
  reason : TokenBucketErrorReason
  tokenAmount : ℚ
deriving DecidableEq

/-- The message `safeConsume` builds on denial (`src/bucket.ts`): the two
lines joined with a newline, naming the attempted cost, the bucket id, and
the available token count. -/
def notEnoughTokensMessage (amount : ℚ) (id : String) (tokens : ℚ) :
    String :=
  "Not enough tokens!\n" ++ "Tried to consume " ++ toString amount
    ++ " from bucket with id " ++ id ++ ", but there are only "
    ++ toString tokens ++ " tokens!"

/-- `createBucket` (`src/bucket.ts`): throws when the library was not
initialized (`redisClientOrPool` is unset, modelled by the `initialized`
flag); otherwise returns the stateless handle with the versioned key.
No other check is performed and no store access happens at construction. -/
def createBucket (initialized : Bool) (id : String)
    (capacity refillRateInTokensPerMinute : ℚ) : Except String Bucket :=
  if !initialized then
    .error
      "Cannot call `createBucket` without having initialized the library first!"
  else
    .ok ⟨id, capacity, refillRateInTokensPerMinute,
      "TOKEN_BUCKET_REDIS_1_0_0_" ++ id⟩

/-- The discriminated union returned by `safeConsume` (`src/bucket.ts`). -/
structure SafeConsumeOutput where
  success : Bool
  tokenAmount : ℚ
  error : Option TokenBucketError
deriving DecidableEq

/-- `safeConsume` (`src/bucket.ts`): invokes the Redis function with the
bucket's configuration, the requested amount and `Date.now()`, and
translates a `["FAIL", tokens]` result into a `TokenBucketError`. `stored`
is the Redis record the atomic call acts on; the record it leaves behind is
returned alongside. -/
def safeConsume (b : Bucket) (stored : Option BucketState)
    (now amount : ℚ) : SafeConsumeOutput × Option BucketState :=
  if (use_token_bucket stored b.capacity amount
      b.refillRateInTokensPerMinute now).outcome = "FAIL" then
    ({ success := false
       tokenAmount := (use_token_bucket stored b.capacity amount
         b.refillRateInTokensPerMinute now).tokens
       error := some
         { bucket := b
           message := notEnoughTokensMessage amount b.id
             (use_token_bucket stored b.capacity amount
               b.refillRateInTokensPerMinute now).tokens
           reason := .NOT_ENOUGH_TOKENS
           tokenAmount := (use_token_bucket stored b.capacity amount
             b.refillRateInTokensPerMinute now).tokens } },
      (use_token_bucket stored b.capacity amount
        b.refillRateInTokensPerMinute now).stored_after)
  else
    ({ success := true
       tokenAmount := (use_token_bucket stored b.capacity amount
         b.refillRateInTokensPerMinute now).tokens
       error := none },
      (use_token_bucket stored b.capacity amount
        b.refillRateInTokensPerMinute now).stored_after)

/-- `consume` (`src/bucket.ts`): runs `safeConsume`, throws the error when
one is present, and otherwise returns the token amount. -/
def consume (b : Bucket) (stored : Option BucketState) (now amount : ℚ) :
    Except TokenBucketError ℚ × Option BucketState :=
  ((safeConsume b stored now amount).1.error.elim
      (Except.ok (safeConsume b stored now amount).1.tokenAmount)
      Except.error,
    (safeConsume b stored now amount).2)

/-- An outcome that is not the `FAIL` tag is the `SUCCESS` tag. -/
lemma outcome_success_of_not_fail (stored : Option BucketState)
    (cap cost rate now : ℚ)
    (h : ¬ (use_token_bucket stored cap cost rate now).outcome = "FAIL") :
    (use_token_bucket stored cap cost rate now).outcome = "SUCCESS" := by
  rw [outcome_eq] at h ⊢
  split_ifs with hc
  · rfl
  · rw [if_neg hc] at h
    exact absurd rfl h

/-- C9: calling `createBucket` before `initialize` registered a store
connection throws immediately at construction time; the embedded
`createBucket` never accesses the store at all. -/
theorem createBucket_requires_initialization (id : String)
    (capacity rate : ℚ) :
    createBucket false id capacity rate
      = .error
        "Cannot call `createBucket` without having initialized the library first!" :=
  rfl

/-- C4 (divergence from the spec): `createBucket` performs no validation of
the configuration. With the library initialized it returns a handle even
for `capacity = 0` and `refill rate = 0`, deferring the invalid values into
the atomic procedure's arithmetic instead of rejecting them eagerly. -/
theorem createBucket_accepts_nonpositive_config :
    createBucket true "B" 0 0
      = .ok ⟨"B", 0, 0, "TOKEN_BUCKET_REDIS_1_0_0_" ++ "B"⟩ :=
  rfl

/-- C8: `consume` raises the typed `TokenBucketError` — reason
`NOT_ENOUGH_TOKENS`, carrying the denied bucket handle, the message naming
the attempted cost and the bucket id, and the post-refill token count —
exactly when the atomic procedure returns the `FAIL` tag; on admission it
returns the procedure's resulting token count without raising. -/
theorem consume_raises_iff_denied (b : Bucket) (stored : Option BucketState)
    (now amount : ℚ) :
    ((consume b stored now amount).1
        = Except.error
          { bucket := b
            message := notEnoughTokensMessage amount b.id
              (use_token_bucket stored b.capacity amount
                b.refillRateInTokensPerMinute now).tokens
            reason := .NOT_ENOUGH_TOKENS
            tokenAmount := (use_token_bucket stored b.capacity amount
              b.refillRateInTokensPerMinute now).tokens }
      ↔ (use_token_bucket stored b.capacity amount
          b.refillRateInTokensPerMinute now).outcome = "FAIL")
    ∧ ((consume b stored now amount).1
        = Except.ok (use_token_bucket stored b.capacity amount
            b.refillRateInTokensPerMinute now).tokens
      ↔ (use_token_bucket stored b.capacity amount
          b.refillRateInTokensPerMinute now).outcome = "SUCCESS") := by
  by_cases h : (use_token_bucket stored b.capacity amount
      b.refillRateInTokensPerMinute now).outcome = "FAIL"
  · constructor
    · simp [consume, safeConsume, h]
    · rw [h]
      simp [consume, safeConsume, h]
  · have hs := outcome_success_of_not_fail stored b.capacity amount
      b.refillRateInTokensPerMinute now h
    constructor
    · rw [hs]
      simp [consume, safeConsume, h]
    · rw [hs]
      simp [consume, safeConsume, h]

end TokenBucketRedis
